import Mathlib

/-!
Shallow embedding of `src/ks/KsEventLoop.cpp` (the `ks::EventLoop` reactor).

The C++ object state (lifecycle flags, owning thread, asio work token and
stopped condition, the timer registry `m_list_timers`, and the heap of
`TimerInfo` objects shared between the registry and pending `TimeoutHandler`
closures) is modelled as an explicit `LoopState` record.  Operations are
state transformers returning the new state together with a list of
observable `Effect`s (asio arms/cancels, condition-variable notifications,
signal emissions, synchronous task invocations).  `Run`/`ProcessEvents`
additionally report the exception they would throw, if any.

Thread identities and timer/owner/task identities are `Nat`; thread id `0`
plays the role of the null sentinel `m_thread_id_null`.  `weak_ptr<Timer>`
is modelled as a key into an `owners` table: the pointer locks successfully
exactly when the key is present.  `shared_ptr<TimerInfo>` aliasing between
the registry and dispatched handlers is modelled by keeping every allocated
`TimerInfo` in a `heap` keyed by an allocation id that only grows; erasing
a registry entry does not remove the heap object, so a handler that still
holds the allocation id observes flag updates (in particular `canceled`),
exactly as the shared pointer does in the source.
-/

namespace ks

/-- Association-list lookup on `Nat` keys (first match wins), used to model
both `std::map` and the heap of shared objects. -/
def alookup {β : Type} (k : Nat) : List (Nat × β) → Option β
  | [] => none
  | (k2, v) :: rest => if k = k2 then some v else alookup k rest

/-- Erase the first binding of key `k` (models `std::map::erase(iterator)`,
whose keys are unique). -/
def aeraseKey {β : Type} (k : Nat) : List (Nat × β) → List (Nat × β)
  | [] => []
  | (k2, v) :: rest => if k = k2 then rest else (k2, v) :: aeraseKey k rest

/-- Update the value stored under key `k` in place, leaving other bindings
alone (models mutating a field of the object found at `k`). -/
def aset {β : Type} (k : Nat) (f : β → β) : List (Nat × β) → List (Nat × β)
  | [] => []
  | (k2, v) :: rest =>
      if k = k2 then (k2, f v) :: aset k f rest else (k2, v) :: aset k f rest

/-- Number of bindings for key `k`. -/
def countKey {β : Type} (k : Nat) (l : List (Nat × β)) : Nat :=
  (l.filter (fun p => p.1 == k)).length

/-- The logical `ks::Timer` owner object: only its `m_active` flag is
touched by the event loop. -/
structure TimerObj where
  m_active : Bool
deriving Repr, DecidableEq

/-- `ks::TimerInfo` (KsEventLoop.cpp lines 61-84): per-timer registry entry.
`timer` is the weak back-reference to the owner, as a key into `owners`;
the embedded `asio::steady_timer` is represented by the entry identity
itself (arms/cancels of it appear as effects). -/
structure TimerInfo where
  id : Nat
  timer : Nat
  interval_ms : Nat
  repeats : Bool
  canceled : Bool
deriving Repr, DecidableEq

/-- Non-timer work queued on the asio service. -/
inductive WorkItem
  | slotEvent (e : Nat)
  | blockingSlotEvent (e : Nat)
  | task (t : Nat)
deriving Repr, DecidableEq

/-- Observable actions the event loop performs on its collaborators. -/
inductive Effect
  | serviceReset
  | serviceStop
  | notifyStarted
  | notifyRunning
  | notifyStopped
  | cancelWait (alloc : Nat)
  | armWait (alloc : Nat) (interval_ms : Nat)
  | emitTimeout (owner : Nat)
  | invokeTask (t : Nat)
  | invokeSlot (e : Nat)
  | invokeBlockingSlot (e : Nat)
deriving Repr, DecidableEq

/-- The two exceptions thrown by `ensureActiveThread` / `ensureActiveLoop`. -/
inductive LoopError
  | calledFromWrongThread
  | inactive
deriving Repr, DecidableEq

/-- The state of one `ks::EventLoop` together with the objects it shares
with handlers: `owners` are the live logical `Timer` objects, `heap` holds
every allocated `TimerInfo` (keyed by allocation id `next_alloc` counts),
`m_list_timers` maps timer id to the allocation id of its current entry,
and `queue` is the asio service's pending non-timer work. -/
structure LoopState where
  m_started : Bool
  m_running : Bool
  m_thread_id : Nat
  asio_work : Bool
  asio_stopped : Bool
  owners : List (Nat × TimerObj)
  heap : List (Nat × TimerInfo)
  m_list_timers : List (Nat × Nat)
  next_alloc : Nat
  queue : List WorkItem
deriving Repr, DecidableEq

/-- `EventLoop::GetStarted`. -/
def GetStarted (s : LoopState) : Bool := s.m_started

/-- `EventLoop::GetRunning`. -/
def GetRunning (s : LoopState) : Bool := s.m_running

/-- `EventLoop::GetThreadId`. -/
def GetThreadId (s : LoopState) : Nat := s.m_thread_id

/-- Does `weak_ptr<Timer>.lock()` succeed for owner key `o`? -/
def ownerAlive (s : LoopState) (o : Nat) : Bool := (alookup o s.owners).isSome

/-- Assign `timer->m_active = b` on the owner object `o` (no-op if the
owner is gone). -/
def setOwnerActive (s : LoopState) (o : Nat) (b : Bool) : LoopState :=
  { s with owners := aset o (fun t => { t with m_active := b }) s.owners }

/-- `EventLoop::Start` (lines 304-322): no-op when already started or the
work token is installed; otherwise resets the service, installs the
keep-alive work token, records the calling thread, sets `m_started` and
notifies `m_cv_started`. -/
def Start (s : LoopState) (caller : Nat) : LoopState × List Effect :=
  if s.m_started || s.asio_work then (s, [])
  else
    ({ s with asio_stopped := false
            , asio_work := true
            , m_thread_id := caller
            , m_started := true },
     [Effect.serviceReset, Effect.notifyStarted])

/-- `EventLoop::Stop` (lines 342-351): releases the work token, stops the
service, clears the owning thread to the null sentinel, clears `m_started`
and notifies `m_cv_stopped`.  It touches nothing else. -/
def Stop (s : LoopState) : LoopState × List Effect :=
  ({ s with asio_work := false
          , asio_stopped := true
          , m_thread_id := 0
          , m_started := false },
   [Effect.serviceStop, Effect.notifyStopped])

/-- `ensureActiveLoop` (lines 496-503) succeeds iff started and the work
token is present. -/
def ensureActiveLoopOk (s : LoopState) : Bool := s.m_started && s.asio_work

/-- `ensureActiveThread` (lines 483-494) succeeds iff the caller is the
recorded owning thread. -/
def ensureActiveThreadOk (s : LoopState) (caller : Nat) : Bool :=
  s.m_thread_id == caller

/-- Executing one queued work item on the consumer thread
(`EventHandler::operator()` / `TaskHandler::operator()`). -/
def runWorkItem : WorkItem → Effect
  | .slotEvent e => .invokeSlot e
  | .blockingSlotEvent e => .invokeBlockingSlot e
  | .task t => .invokeTask t

/-- Result of `Run` / `ProcessEvents`: final state, effects performed, and
the exception thrown (if any).  When `err` is set the state is returned
unchanged: both checks run under the mutex before any mutation. -/
structure Outcome where
  state : LoopState
  effects : List Effect
  err : Option LoopError
deriving Repr, DecidableEq

/-- `EventLoop::Run` (lines 324-340): checks `ensureActiveLoop` then
`ensureActiveThread` (throwing leaves the state untouched), sets
`m_running`, notifies `m_cv_running`, pumps the service (modelled as
draining the queue; the blocking interleaving with `Stop` is modelled by
`stepFn`), and on return clears `m_running`. -/
def Run (s : LoopState) (caller : Nat) : Outcome :=
  if !ensureActiveLoopOk s then ⟨s, [], some .inactive⟩
  else if !ensureActiveThreadOk s caller then ⟨s, [], some .calledFromWrongThread⟩
  else
    ⟨{ s with m_running := false, queue := [] },
     Effect.notifyRunning :: s.queue.map runWorkItem, none⟩

/-- `EventLoop::ProcessEvents` (lines 359-367): same checks as `Run`, then
a single non-blocking `poll()` draining the currently ready work. -/
def ProcessEvents (s : LoopState) (caller : Nat) : Outcome :=
  if !ensureActiveLoopOk s then ⟨s, [], some .inactive⟩
  else if !ensureActiveThreadOk s caller then ⟨s, [], some .calledFromWrongThread⟩
  else ⟨{ s with queue := [] }, s.queue.map runWorkItem, none⟩

/-- `EventLoop::PostTask` (lines 393-406): invoked synchronously in place
when the caller is the owning thread, queued otherwise. -/
def PostTask (s : LoopState) (caller : Nat) (t : Nat) : LoopState × List Effect :=
  if caller == s.m_thread_id then (s, [Effect.invokeTask t])
  else ({ s with queue := s.queue ++ [WorkItem.task t] }, [])

/-- `EventLoop::startTimer` (lines 510-542): discard if the weak owner is
dead; else cancel+mark+erase any existing entry for the id, allocate a
fresh `TimerInfo`, register it, mark the owner active and arm the wait. -/
def startTimer (s : LoopState) (timer_id : Nat) (owner : Nat)
    (interval_ms : Nat) (repeats : Bool) : LoopState × List Effect :=
  if ownerAlive s owner = false then (s, [])
  else
    let s1 :=
      match alookup timer_id s.m_list_timers with
      | some a =>
          { s with heap := aset a (fun ti => { ti with canceled := true }) s.heap
                 , m_list_timers := aeraseKey timer_id s.m_list_timers }
      | none => s
    let effs1 : List Effect :=
      match alookup timer_id s.m_list_timers with
      | some a => [Effect.cancelWait a]
      | none => []
    let a := s1.next_alloc
    let ti : TimerInfo := ⟨timer_id, owner, interval_ms, repeats, false⟩
    let s2 := { s1 with heap := s1.heap ++ [(a, ti)]
                      , m_list_timers := (timer_id, a) :: s1.m_list_timers
                      , next_alloc := a + 1 }
    (setOwnerActive s2 owner true, effs1 ++ [Effect.armWait a interval_ms])

/-- `EventLoop::stopTimer` (lines 544-563): no-op when no entry exists for
the id; otherwise mark the owner inactive (if still alive), cancel the
underlying wait, set the entry's `canceled` flag and erase the entry.  The
heap object survives (the dispatched handler's `shared_ptr` keeps it). -/
def stopTimer (s : LoopState) (timer_id : Nat) : LoopState × List Effect :=
  match alookup timer_id s.m_list_timers with
  | none => (s, [])
  | some a =>
    match alookup a s.heap with
    | none => (s, [])
    | some ti =>
      let s1 := if ownerAlive s ti.timer then setOwnerActive s ti.timer false else s
      ({ s1 with heap := aset a (fun t2 => { t2 with canceled := true }) s1.heap
               , m_list_timers := aeraseKey timer_id s1.m_list_timers },
       [Effect.cancelWait a])

/-- `TimeoutHandler::operator()` (lines 111-142), fired for the entry at
allocation id `alloc` with `ec_aborted` the `operation_aborted` test on the
asio error code: return silently on cancellation or a dead owner; re-arm
before emitting when repeating; mark the owner inactive when one-shot;
emit the timeout signal once. -/
def timeoutHandler (s : LoopState) (alloc : Nat) (ec_aborted : Bool) :
    LoopState × List Effect :=
  match alookup alloc s.heap with
  | none => (s, [])
  | some ti =>
    if ec_aborted || ti.canceled then (s, [])
    else if ownerAlive s ti.timer = false then (s, [])
    else if ti.repeats then
      (s, [Effect.armWait alloc ti.interval_ms, Effect.emitTimeout ti.timer])
    else
      (setOwnerActive s ti.timer false, [Effect.emitTimeout ti.timer])

/-- `Event` variants accepted by `PostEvent` (KsEvent kinds used here). -/
inductive Event
  | slot (e : Nat)
  | blockingSlot (e : Nat)
  | startTimerEv (timer_id owner interval_ms : Nat) (repeats : Bool)
  | stopTimerEv (timer_id : Nat)
deriving Repr, DecidableEq

/-- `EventLoop::PostEvent` (lines 369-391): timer events are applied
synchronously to the registry; everything else is queued. -/
def PostEvent (s : LoopState) : Event → LoopState × List Effect
  | .startTimerEv id own iv rp => startTimer s id own iv rp
  | .stopTimerEv id => stopTimer s id
  | .slot e => ({ s with queue := s.queue ++ [WorkItem.slotEvent e] }, [])
  | .blockingSlot e =>
      ({ s with queue := s.queue ++ [WorkItem.blockingSlotEvent e] }, [])

/-- Mutex-granularity atomic actions, for interleaved executions: `Run` is
split into its prologue (the checks plus `m_running := true`, one critical
section) and its epilogue (`m_running := false` after `run()` returns);
`Start`, `Stop` and the timer operations each hold the mutex for their
whole body. -/
inductive LAct
  | aStart (caller : Nat)
  | aRunProlog (caller : Nat)
  | aRunEpilog
  | aStop
  | aPostTask (caller t : Nat)
  | aStartTimer (timer_id owner interval_ms : Nat) (repeats : Bool)
  | aStopTimer (timer_id : Nat)
deriving Repr, DecidableEq

/-- One atomic step of the interleaving semantics; `none` when the action
is not enabled (the prologue threw, or there is no run to finish). -/
def stepFn (s : LoopState) : LAct → Option LoopState
  | .aStart c => some (Start s c).1
  | .aRunProlog c =>
      if ensureActiveLoopOk s && ensureActiveThreadOk s c
      then some { s with m_running := true } else none
  | .aRunEpilog =>
      if s.m_running then some { s with m_running := false } else none
  | .aStop => some (Stop s).1
  | .aPostTask c t => some (PostTask s c t).1
  | .aStartTimer id own iv rp => some (startTimer s id own iv rp).1
  | .aStopTimer id => some (stopTimer s id).1

/-- A freshly constructed `EventLoop` (lines 257-264): not started, not
running, null thread, no work token, empty registry and queue. -/
def initState : LoopState :=
  ⟨false, false, 0, false, false, [], [], [], 0, []⟩

/-- States reachable from a fresh loop by any interleaving of atomic
steps. -/
inductive Reach : LoopState → Prop
  | init : Reach initState
  | step {s : LoopState} {a : LAct} {s2 : LoopState} :
      Reach s → stepFn s a = some s2 → Reach s2

/-- All keys of the list are below `n` (allocation freshness). -/
def keysBelow {β : Type} (l : List (Nat × β)) (n : Nat) : Prop :=
  ∀ p ∈ l, p.1 < n

/-- In a well-formed state every allocated `TimerInfo` sits below the
allocation counter, so `next_alloc` is fresh. -/
def HeapFresh (s : LoopState) : Prop := keysBelow s.heap s.next_alloc

/-- Is this effect an emission of `signal_timeout`? -/
def isEmitTimeout : Effect → Bool
  | .emitTimeout _ => true
  | _ => false

/-- How many timeout notifications a list of effects contains. -/
def emitCount (effs : List Effect) : Nat := (effs.filter isEmitTimeout).length

/-- A started loop (owning thread 1) with one armed one-shot timer: owner
object 2 is alive and active, registry maps timer id 1 to allocation 0. -/
def sampleOneShot : LoopState :=
  ⟨true, false, 1, true, false, [(2, ⟨true⟩)],
   [(0, ⟨1, 2, 100, false, false⟩)], [(1, 0)], 1, []⟩

/-- Like `sampleOneShot` but the armed timer repeats every 50ms. -/
def sampleRepeating : LoopState :=
  ⟨true, false, 1, true, false, [(2, ⟨true⟩)],
   [(0, ⟨1, 2, 50, true, false⟩)], [(1, 0)], 1, []⟩

theorem alookup_aset_self {β : Type} (k : Nat) (f : β → β) (l : List (Nat × β)) :
    alookup k (aset k f l) = (alookup k l).map f := by
  induction l with
  | nil => rfl
  | cons p rest ih =>
    obtain ⟨k2, v⟩ := p
    by_cases h : k = k2 <;> simp [alookup, aset, h, ih]

theorem alookup_append {β : Type} (k : Nat) (l l2 : List (Nat × β)) :
    alookup k (l ++ l2) =
      match alookup k l with
      | some v => some v
      | none => alookup k l2 := by
  induction l with
  | nil => rfl
  | cons p rest ih =>
    obtain ⟨k2, v⟩ := p
    by_cases h : k = k2 <;> simp [alookup, h, ih]

theorem keysBelow_aset {β : Type} {l : List (Nat × β)} {n j : Nat} (f : β → β)
    (h : keysBelow l n) : keysBelow (aset j f l) n := by
  induction l with
  | nil => exact h
  | cons p rest ih =>
    obtain ⟨k2, v⟩ := p
    have hhead : k2 < n := h ⟨k2, v⟩ (List.mem_cons_self _ _)
    have hrest : keysBelow rest n := fun q2 hq2 => h q2 (List.mem_cons_of_mem _ hq2)
    intro q hq
    simp only [aset] at hq
    split at hq <;> rcases List.mem_cons.mp hq with hq | hq
    · subst hq; exact hhead
    · exact ih hrest q hq
    · subst hq; exact hhead
    · exact ih hrest q hq

theorem alookup_lt_of_keysBelow {β : Type} {l : List (Nat × β)} {n k : Nat}
    {v : β} (hb : keysBelow l n) (h : alookup k l = some v) : k < n := by
  induction l with
  | nil => simp [alookup] at h
  | cons p rest ih =>
    obtain ⟨k2, v2⟩ := p
    by_cases he : k = k2
    · exact he ▸ hb ⟨k2, v2⟩ (List.mem_cons_self _ _)
    · simp [alookup, he] at h
      exact ih (fun q hq => hb q (List.mem_cons_of_mem _ hq)) h

theorem alookup_none_of_keysBelow {β : Type} {l : List (Nat × β)} {n : Nat}
    (hb : keysBelow l n) : alookup n l = none := by
  cases h : alookup n l with
  | none => rfl
  | some v => exact absurd (alookup_lt_of_keysBelow hb h) (lt_irrefl n)

theorem countKey_aeraseKey_self {β : Type} (k : Nat) (l : List (Nat × β)) :
    countKey k (aeraseKey k l) = countKey k l - 1 := by
  induction l with
  | nil => rfl
  | cons p rest ih =>
    obtain ⟨k2, v⟩ := p
    by_cases h : k = k2
    · subst h
      simp [countKey, aeraseKey, List.filter_cons]
    · have e1 : aeraseKey k ((k2, v) :: rest) = (k2, v) :: aeraseKey k rest := by
        simp [aeraseKey, h]
      have e2 : ∀ tail : List (Nat × β),
          countKey k ((k2, v) :: tail) = countKey k tail := by
        intro tail
        simp [countKey, List.filter_cons, Ne.symm h]
      rw [e1, e2, e2, ih]

/-- Claim C10: `Stop` modifies only the keep-alive token, the service's
stopped condition, the owning thread (set to the null sentinel) and the
started flag, and notifies stopped waiters; everything else is unchanged.
In particular it never clears the running flag, so `GetRunning` can still
report `true` after `Stop`, and it leaves the timer registry, the heap of
timer entries, the owner objects and the queued work untouched — armed
entries are neither canceled, marked canceled, nor erased. -/
theorem C10_stop_frame (s : LoopState) :
    (Stop s).1.asio_work = false ∧
    (Stop s).1.asio_stopped = true ∧
    (Stop s).1.m_thread_id = 0 ∧
    GetStarted (Stop s).1 = false ∧
    (Stop s).2 = [Effect.serviceStop, Effect.notifyStopped] ∧
    GetRunning (Stop s).1 = GetRunning s ∧
    (Stop s).1.m_list_timers = s.m_list_timers ∧
    (Stop s).1.heap = s.heap ∧
    (Stop s).1.owners = s.owners ∧
    (Stop s).1.queue = s.queue ∧
    (Stop s).1.next_alloc = s.next_alloc :=
  ⟨rfl, rfl, rfl, rfl, rfl, rfl, rfl, rfl, rfl, rfl, rfl⟩

/-- Claim C7: `Start` on an already-started loop is a no-op (state and
effects are exactly those of doing nothing, so no second keep-alive token,
no service reset, no re-recording of the owning thread); `Start` on a
stopped loop (not started, no work token) clears the service's stopped
condition, installs the keep-alive token, records the caller as the owning
thread, sets the started flag and notifies started waiters, leaving the
registry and the queue alone. -/
theorem C7_start_idempotent (s : LoopState) (caller : Nat) :
    (GetStarted s = true → Start s caller = (s, [])) ∧
    (GetStarted s = false → s.asio_work = false →
      GetStarted (Start s caller).1 = true ∧
      (Start s caller).1.asio_work = true ∧
      (Start s caller).1.m_thread_id = caller ∧
      (Start s caller).1.asio_stopped = false ∧
      GetRunning (Start s caller).1 = GetRunning s ∧
      (Start s caller).1.m_list_timers = s.m_list_timers ∧
      (Start s caller).1.heap = s.heap ∧
      (Start s caller).1.queue = s.queue ∧
      (Start s caller).2 = [Effect.serviceReset, Effect.notifyStarted]) := by
  constructor
  · intro h
    simp only [GetStarted] at h
    simp [Start, h]
  · intro h1 h2
    simp only [GetStarted] at h1
    simp [Start, GetStarted, GetRunning, h1, h2]

/-- Witness for C7 at concrete inputs: a second `Start` on a started loop
returns it unchanged, and `Start` on a fresh loop sets the started flag. -/
theorem C7_start_idempotent_witness :
    Start sampleOneShot 9 = (sampleOneShot, []) ∧
    GetStarted (Start initState 9).1 = true :=
  ⟨(C7_start_idempotent sampleOneShot 9).1 rfl,
   ((C7_start_idempotent initState 9).2 rfl rfl).1⟩

/-- Claim C4: on a started loop (started flag set and work token present),
`Run` and `ProcessEvents` called from a thread other than the owning
thread throw `EventLoopCalledFromWrongThread`, perform no effects (so no
queued work runs) and leave the state — flags, owning thread, registry,
queue — exactly unchanged. -/
theorem C4_wrong_thread (s : LoopState) (caller : Nat)
    (hstarted : GetStarted s = true) (hwork : s.asio_work = true)
    (hthread : caller ≠ GetThreadId s) :
    Run s caller = ⟨s, [], some LoopError.calledFromWrongThread⟩ ∧
    ProcessEvents s caller = ⟨s, [], some LoopError.calledFromWrongThread⟩ := by
  simp only [GetStarted] at hstarted
  simp only [GetThreadId] at hthread
  have hloop : ensureActiveLoopOk s = true := by
    simp [ensureActiveLoopOk, hstarted, hwork]
  have hth : ensureActiveThreadOk s caller = false := by
    simp [ensureActiveThreadOk]
    exact fun h => hthread h.symm
  constructor <;> simp [Run, ProcessEvents, hloop, hth]

/-- Witness for C4: a loop started on thread 1, with a callback queued,
refuses `Run` from thread 2 and executes nothing. -/
theorem C4_wrong_thread_witness :
    Run ⟨true, false, 1, true, false, [], [], [], 0, [WorkItem.slotEvent 3]⟩ 2 =
      ⟨⟨true, false, 1, true, false, [], [], [], 0, [WorkItem.slotEvent 3]⟩, [],
       some LoopError.calledFromWrongThread⟩ :=
  (C4_wrong_thread
    ⟨true, false, 1, true, false, [], [], [], 0, [WorkItem.slotEvent 3]⟩ 2
    rfl rfl (by decide)).1

/-- Claim C9: `Run` and `ProcessEvents` on a loop that is not started (no
started flag or no keep-alive work token) throw the recoverable
`EventLoopInactive` warning rather than silently returning, perform no
effects and drain no work. -/
theorem C9_inactive_loop (s : LoopState) (caller : Nat)
    (h : GetStarted s = false ∨ s.asio_work = false) :
    Run s caller = ⟨s, [], some LoopError.inactive⟩ ∧
    ProcessEvents s caller = ⟨s, [], some LoopError.inactive⟩ := by
  have hloop : ensureActiveLoopOk s = false := by
    rcases h with h | h
    · simp only [GetStarted] at h
      simp [ensureActiveLoopOk, h]
    · simp [ensureActiveLoopOk, h]
  constructor <;> simp [Run, ProcessEvents, hloop]

/-- Witness for C9: a fresh, never-started loop rejects `Run` with the
inactive warning. -/
theorem C9_inactive_loop_witness :
    Run initState 1 = ⟨initState, [], some LoopError.inactive⟩ :=
  (C9_inactive_loop initState 1 (Or.inl rfl)).1

/-- Claim C6: `PostTask` from the thread recorded as the owning thread
invokes the task synchronously in place (the state, including the queue,
is unchanged and the invocation is the only effect of the call); from any
other thread the task is appended to the queue for later consumption and
is not invoked during the call. -/
theorem C6_post_task_fast_path (s : LoopState) (caller t : Nat) :
    (caller = GetThreadId s →
      PostTask s caller t = (s, [Effect.invokeTask t])) ∧
    (caller ≠ GetThreadId s →
      (PostTask s caller t).1.queue = s.queue ++ [WorkItem.task t] ∧
      (PostTask s caller t).2 = []) := by
  constructor
  · intro h
    simp only [GetThreadId] at h
    simp [PostTask, h]
  · intro h
    simp only [GetThreadId] at h
    have hb : (caller == s.m_thread_id) = false := by simp [h]
    simp [PostTask, hb]

/-- Witness for C6: posting task 9 from owning thread 1 runs it in place;
posting it from thread 2 queues it with no synchronous invocation. -/
theorem C6_post_task_fast_path_witness :
    PostTask sampleOneShot 1 9 = (sampleOneShot, [Effect.invokeTask 9]) ∧
    (PostTask sampleOneShot 2 9).1.queue = [WorkItem.task 9] ∧
    (PostTask sampleOneShot 2 9).2 = [] :=
  ⟨(C6_post_task_fast_path sampleOneShot 1 9).1 rfl,
   (C6_post_task_fast_path sampleOneShot 2 9).2 (by decide)⟩

/-- Claim C8: a `StartTimer` request whose weak owner reference is dead is
discarded with no observable effect: no arming effect, no registry or heap
change — the state, including any existing armed entry for the same id, is
returned exactly as it was. -/
theorem C8_start_timer_dead_owner (s : LoopState) (timer_id owner iv : Nat)
    (rp : Bool) (h : alookup owner s.owners = none) :
    startTimer s timer_id owner iv rp = (s, []) := by
  simp [startTimer, ownerAlive, h]

/-- Witness for C8: owner 5 is not alive in `sampleOneShot` (only owner 2
is), so starting a timer for it — even under the already-used id 1 —
leaves the loop untouched. -/
theorem C8_start_timer_dead_owner_witness :
    startTimer sampleOneShot 1 5 250 true = (sampleOneShot, []) :=
  C8_start_timer_dead_owner sampleOneShot 1 5 250 true rfl

/-- Claim C1: once `stopTimer` has processed a registered timer id (setting
the shared entry's `canceled` flag under the loop's mutex), a subsequently
executed fire callback for that entry is a no-op — the state is unchanged
and no effect, in particular no timeout emission, is produced — whatever
error code the underlying wait delivers; and in general the fire callback
is a no-op whenever the underlying wait reports cancellation
(`operation_aborted`) or the entry's `canceled` flag is set. -/
theorem C1_stop_timer_suppresses_fire :
    (∀ (s : LoopState) (timer_id a : Nat) (ti : TimerInfo) (ec : Bool),
      alookup timer_id s.m_list_timers = some a →
      alookup a s.heap = some ti →
      timeoutHandler (stopTimer s timer_id).1 a ec = ((stopTimer s timer_id).1, [])) ∧
    (∀ (s : LoopState) (a : Nat) (ti : TimerInfo) (ec : Bool),
      alookup a s.heap = some ti →
      ec = true ∨ ti.canceled = true →
      timeoutHandler s a ec = (s, [])) := by
  constructor
  · intro s timer_id a ti ec hid hti
    have hheap : (stopTimer s timer_id).1.heap =
        aset a (fun t2 => { t2 with canceled := true }) s.heap := by
      simp only [stopTimer, hid, hti]
      split <;> rfl
    have hlook : alookup a (stopTimer s timer_id).1.heap =
        some { ti with canceled := true } := by
      rw [hheap, alookup_aset_self, hti]
      rfl
    simp [timeoutHandler, hlook]
  · intro s a ti ec hti hc
    rcases hc with hc | hc <;> simp [timeoutHandler, hti, hc]

/-- Witness for C1: in `sampleOneShot`, stopping timer id 1 and then
letting its dispatched fire callback run (with a successful wait, ec code
not aborted) changes nothing and emits nothing; and firing the entry with
an aborted wait in the original state is likewise a no-op. -/
theorem C1_stop_timer_suppresses_fire_witness :
    timeoutHandler (stopTimer sampleOneShot 1).1 0 false =
      ((stopTimer sampleOneShot 1).1, []) ∧
    timeoutHandler sampleOneShot 0 true = (sampleOneShot, []) :=
  ⟨C1_stop_timer_suppresses_fire.1 sampleOneShot 1 0 ⟨1, 2, 100, false, false⟩
     false rfl rfl,
   C1_stop_timer_suppresses_fire.2 sampleOneShot 0 ⟨1, 2, 100, false, false⟩
     true rfl (Or.inl rfl)⟩

/-- Claim C2: a successful firing (wait not aborted, entry not canceled,
owner alive) of the entry at allocation `a` re-arms the underlying handle
for the same interval *before* emitting the timeout when `repeats` is set,
marks the logical owner inactive when it is not, and in either case emits
the owner's timeout notification exactly once. -/
theorem C2_fire_success (s : LoopState) (a : Nat) (ti : TimerInfo)
    (hti : alookup a s.heap = some ti)
    (hcanc : ti.canceled = false)
    (halive : ownerAlive s ti.timer = true) :
    (ti.repeats = true →
      timeoutHandler s a false =
        (s, [Effect.armWait a ti.interval_ms, Effect.emitTimeout ti.timer])) ∧
    (ti.repeats = false →
      timeoutHandler s a false =
        (setOwnerActive s ti.timer false, [Effect.emitTimeout ti.timer])) ∧
    emitCount (timeoutHandler s a false).2 = 1 := by
  refine ⟨?_, ?_, ?_⟩
  · intro hrp
    simp [timeoutHandler, hti, hcanc, halive, hrp]
  · intro hrp
    simp [timeoutHandler, hti, hcanc, halive, hrp]
  · cases hrp : ti.repeats <;>
      simp [timeoutHandler, hti, hcanc, halive, hrp, emitCount,
            List.filter_cons, isEmitTimeout]

/-- Witness for C2 at both repeat values: the repeating sample re-arms for
its 50ms interval and then emits; the one-shot sample marks owner 2
inactive and emits; each firing emits exactly once. -/
theorem C2_fire_success_witness :
    timeoutHandler sampleRepeating 0 false =
      (sampleRepeating, [Effect.armWait 0 50, Effect.emitTimeout 2]) ∧
    timeoutHandler sampleOneShot 0 false =
      (setOwnerActive sampleOneShot 2 false, [Effect.emitTimeout 2]) ∧
    emitCount (timeoutHandler sampleOneShot 0 false).2 = 1 :=
  ⟨(C2_fire_success sampleRepeating 0 ⟨1, 2, 50, true, false⟩
      rfl rfl rfl).1 rfl,
   (C2_fire_success sampleOneShot 0 ⟨1, 2, 100, false, false⟩
      rfl rfl rfl).2.1 rfl,
   (C2_fire_success sampleOneShot 0 ⟨1, 2, 100, false, false⟩
      rfl rfl rfl).2.2⟩

/-- Claim C3: `startTimer` for an id that already has an entry, with a
live owner, cancels the old entry's wait, sets its `canceled` flag (the
object survives for any dispatched handler), erases it from the registry
and inserts a freshly armed entry carrying the new interval and repeat
flag; afterwards exactly one registry entry exists for the id, it is the
new one, the effects are the cancel of the old wait followed by the arming
of the new one, and the old entry can never fire — its callback is a no-op
for every error code. -/
theorem C3_start_timer_replaces (s : LoopState)
    (timer_id owner iv : Nat) (rp : Bool) (a_old : Nat) (tiOld : TimerInfo)
    (hfresh : HeapFresh s)
    (halive : ownerAlive s owner = true)
    (hold : alookup timer_id s.m_list_timers = some a_old)
    (hheapold : alookup a_old s.heap = some tiOld)
    (hcount : countKey timer_id s.m_list_timers = 1) :
    alookup timer_id (startTimer s timer_id owner iv rp).1.m_list_timers =
      some s.next_alloc ∧
    countKey timer_id (startTimer s timer_id owner iv rp).1.m_list_timers = 1 ∧
    alookup s.next_alloc (startTimer s timer_id owner iv rp).1.heap =
      some ⟨timer_id, owner, iv, rp, false⟩ ∧
    alookup a_old (startTimer s timer_id owner iv rp).1.heap =
      some { tiOld with canceled := true } ∧
    (startTimer s timer_id owner iv rp).2 =
      [Effect.cancelWait a_old, Effect.armWait s.next_alloc iv] ∧
    (∀ ec, timeoutHandler (startTimer s timer_id owner iv rp).1 a_old ec =
      ((startTimer s timer_id owner iv rp).1, [])) := by
  have hne : a_old ≠ s.next_alloc :=
    Nat.ne_of_lt (alookup_lt_of_keysBelow hfresh hheapold)
  have hreg : (startTimer s timer_id owner iv rp).1.m_list_timers =
      (timer_id, s.next_alloc) :: aeraseKey timer_id s.m_list_timers := by
    simp [startTimer, halive, hold, setOwnerActive]
  have hheap : (startTimer s timer_id owner iv rp).1.heap =
      aset a_old (fun t2 => { t2 with canceled := true }) s.heap ++
        [(s.next_alloc, ⟨timer_id, owner, iv, rp, false⟩)] := by
    simp [startTimer, halive, hold, setOwnerActive]
  have heffs : (startTimer s timer_id owner iv rp).2 =
      [Effect.cancelWait a_old, Effect.armWait s.next_alloc iv] := by
    simp [startTimer, halive, hold, setOwnerActive]
  have hlookOld : alookup a_old (startTimer s timer_id owner iv rp).1.heap =
      some { tiOld with canceled := true } := by
    rw [hheap, alookup_append, alookup_aset_self, hheapold]
    rfl
  refine ⟨?_, ?_, ?_, hlookOld, heffs, ?_⟩
  · rw [hreg]
    simp [alookup]
  · rw [hreg]
    have : countKey timer_id
        ((timer_id, s.next_alloc) :: aeraseKey timer_id s.m_list_timers) =
        countKey timer_id (aeraseKey timer_id s.m_list_timers) + 1 := by
      simp [countKey, List.filter_cons]
    rw [this, countKey_aeraseKey_self, hcount]
  · rw [hheap, alookup_append,
        alookup_none_of_keysBelow (keysBelow_aset _ hfresh)]
    simp [alookup]
  · intro ec
    simp [timeoutHandler, hlookOld]

/-- Witness for C3: restarting timer id 1 in `sampleOneShot` (old entry at
allocation 0, interval 100, one-shot) as a repeating 500ms timer yields a
single registry entry at allocation 1 with the new parameters, the old
entry marked canceled, cancel-then-arm effects, and a dead old callback. -/
theorem C3_start_timer_replaces_witness :
    alookup 1 (startTimer sampleOneShot 1 2 500 true).1.m_list_timers =
      some 1 ∧
    countKey 1 (startTimer sampleOneShot 1 2 500 true).1.m_list_timers = 1 ∧
    alookup 1 (startTimer sampleOneShot 1 2 500 true).1.heap =
      some ⟨1, 2, 500, true, false⟩ ∧
    alookup 0 (startTimer sampleOneShot 1 2 500 true).1.heap =
      some ⟨1, 2, 100, false, true⟩ ∧
    (startTimer sampleOneShot 1 2 500 true).2 =
      [Effect.cancelWait 0, Effect.armWait 1 500] ∧
    timeoutHandler (startTimer sampleOneShot 1 2 500 true).1 0 false =
      ((startTimer sampleOneShot 1 2 500 true).1, []) := by
  have h := C3_start_timer_replaces sampleOneShot 1 2 500 true 0
    ⟨1, 2, 100, false, false⟩
    (by intro p hp; simp [sampleOneShot] at hp; simp [sampleOneShot, hp])
    rfl rfl rfl rfl
  exact ⟨h.1, h.2.1, h.2.2.1, h.2.2.2.1, h.2.2.2.2.1, h.2.2.2.2.2 false⟩

/-- Counterexample to claim C5: the invariant `Running ⇒ Started` does not
hold in every reachable state.  Starting a fresh loop on thread 1, letting
`Run`'s prologue set the running flag, and then executing `Stop` (from any
thread, while `run()` still blocks) reaches a state whose running flag is
true but whose started flag is false: `Stop` clears `m_started` yet leaves
`m_running` alone — only `Run`'s epilogue clears it. -/
theorem C5_running_implies_started_cex :
    ¬ (∀ s : LoopState, Reach s → GetRunning s = true → GetStarted s = true) := by
  intro h
  have h1 : stepFn initState (LAct.aStart 1) =
      some ⟨true, false, 1, true, false, [], [], [], 0, []⟩ := rfl
  have r1 : Reach ⟨true, false, 1, true, false, [], [], [], 0, []⟩ :=
    Reach.step Reach.init h1
  have h2 : stepFn ⟨true, false, 1, true, false, [], [], [], 0, []⟩
      (LAct.aRunProlog 1) =
      some ⟨true, true, 1, true, false, [], [], [], 0, []⟩ := rfl
  have r2 : Reach ⟨true, true, 1, true, false, [], [], [], 0, []⟩ :=
    Reach.step r1 h2
  have h3 : stepFn ⟨true, true, 1, true, false, [], [], [], 0, []⟩
      LAct.aStop =
      some ⟨false, true, 0, false, true, [], [], [], 0, []⟩ := rfl
  have r3 : Reach ⟨false, true, 0, false, true, [], [], [], 0, []⟩ :=
    Reach.step r2 h3
  exact Bool.false_ne_true (h _ r3 rfl)

/-- Claim C5 as amended: every atomic step of the loop preserves the
invariant `Running ⇒ Started` except `Stop` executed while the running
flag is set (i.e. concurrently with a blocked `Run`), which leaves the
transient running-but-not-started state exhibited by the counterexample
until `Run`'s epilogue clears the running flag.  In particular `Run`'s
prologue can only set the running flag when the started flag holds. -/
theorem C5_running_implies_started_amended (s : LoopState) (a : LAct)
    (s2 : LoopState) (hstep : stepFn s a = some s2)
    (hinv : GetRunning s = true → GetStarted s = true)
    (hnostop : a = LAct.aStop → GetRunning s = false) :
    GetRunning s2 = true → GetStarted s2 = true := by
  intro hrun2
  cases a with
  | aStart c =>
    simp only [stepFn, Start] at hstep
    split at hstep
    · injection hstep with h
      subst h
      exact hinv hrun2
    · injection hstep with h
      subst h
      rfl
  | aRunProlog c =>
    simp only [stepFn] at hstep
    split at hstep
    · injection hstep with h
      subst h
      rename_i hguard
      have hloop : ensureActiveLoopOk s = true :=
        (Bool.and_eq_true _ _ |>.mp hguard).1
      exact (Bool.and_eq_true _ _ |>.mp hloop).1
    · exact Option.noConfusion hstep
  | aRunEpilog =>
    simp only [stepFn] at hstep
    split at hstep
    · injection hstep with h
      subst h
      exact Bool.noConfusion hrun2
    · exact Option.noConfusion hstep
  | aStop =>
    simp only [stepFn, Stop] at hstep
    injection hstep with h
    subst h
    have hfalse : GetRunning s = false := hnostop rfl
    have htrue : GetRunning s = true := hrun2
    rw [hfalse] at htrue
    exact Bool.noConfusion htrue
  | aPostTask c t =>
    simp only [stepFn, PostTask] at hstep
    split at hstep <;> injection hstep with h <;> subst h
    · exact hinv hrun2
    · exact hinv hrun2
  | aStartTimer timer_id owner iv rp =>
    simp only [stepFn, startTimer, setOwnerActive] at hstep
    split at hstep
    · injection hstep with h
      subst h
      exact hinv hrun2
    · injection hstep with h
      subst h
      revert hrun2
      split <;> intro hrun2 <;> exact hinv hrun2
  | aStopTimer timer_id =>
    simp only [stepFn, stopTimer, setOwnerActive] at hstep
    revert hstep
    split <;> intro hstep
    · injection hstep with h
      subst h
      exact hinv hrun2
    · revert hstep
      split <;> intro hstep <;> injection hstep with h <;> subst h
      · exact hinv hrun2
      · revert hrun2
        split <;> intro hrun2 <;> exact hinv hrun2

/-- Witness for the amended C5: `Run`'s prologue on a started loop (owning
thread 1, called from thread 1) produces a state that is running and, by
the amended invariant, started. -/
theorem C5_running_implies_started_amended_witness :
    GetStarted (⟨true, true, 1, true, false, [], [], [], 0, []⟩ : LoopState) =
      true :=
  C5_running_implies_started_amended
    ⟨true, false, 1, true, false, [], [], [], 0, []⟩ (LAct.aRunProlog 1)
    ⟨true, true, 1, true, false, [], [], [], 0, []⟩ rfl
    (fun _ => rfl) (fun h => nomatch h) rfl

end ks
